import Mathlib

/-!
Verification of the HYPD Games streak engine and leaderboard cache.

The definitions below are a shallow embedding of the login-streak logic in
`backend/server.py` (the `login` endpoint), the leaderboard ranking in
`get_global_leaderboard` / `get_game_leaderboard`, score submission in
`submit_score`, and the Redis cache wrapper in `backend/cache.py`.
Calendar dates are modelled as integers (days); Python dicts are modelled
as association lists.
-/

namespace HypdGames

/-- Streak-related fields stored on the `User` row.  Python columns default
to 0, and every read in the source guards with `or 0`, which is the
identity on natural numbers, so the fields are modelled as `Nat`.
`last_login_date` is nullable, hence `Option`. -/
structure StreakState where
  login_streak : Nat
  best_login_streak : Nat
  last_login_date : Option Int
  total_login_days : Nat
  streak_points : Nat
  deriving Repr, DecidableEq

/-- State of a freshly created user: all streak fields zero, no login date. -/
def initStreak : StreakState :=
  { login_streak := 0, best_login_streak := 0, last_login_date := none,
    total_login_days := 0, streak_points := 0 }

/-- Tiered bonus formula of the consecutive-day branch in `login`
(`server.py`), as a function of the new streak value. -/
def streakBonus (n : Nat) : Nat :=
  if n ≤ 7 then 10 * n
  else if n ≤ 30 then 100 + (n - 7) * 15
  else 500 + (n - 30) * 20

/-- Embedding of the `LOGIN STREAK LOGIC` block of the `login` endpoint in
`server.py`: case analysis on `last_login_date` versus `today`, returning
the updated state together with `points_earned`.  The trailing
`if last_login != today: user.last_login_date = today` of the source is
folded into each branch (it fires in every branch except the same-day
repeat). -/
def applyLogin (u : StreakState) (today : Int) : StreakState × Nat :=
  match u.last_login_date with
  | none =>
      ({ login_streak := 1, best_login_streak := 1,
         last_login_date := some today, total_login_days := 1,
         streak_points := 10 }, 10)
  | some last =>
      if last = today then
        (u, 0)
      else if last = today - 1 then
        let n := u.login_streak + 1
        let pe := streakBonus n
        ({ login_streak := n,
           best_login_streak :=
             if n > u.best_login_streak then n else u.best_login_streak,
           last_login_date := some today,
           total_login_days := u.total_login_days + 1,
           streak_points := u.streak_points + pe }, pe)
      else
        ({ u with login_streak := 1,
                  last_login_date := some today,
                  total_login_days := u.total_login_days + 1,
                  streak_points := u.streak_points + 10 }, 10)

/-- Fold a sequence of login days over `applyLogin`, starting from the
initial user state. -/
def runLogins (ds : List Int) : StreakState :=
  ds.foldl (fun s d => (applyLogin s d).1) initStreak

/-- Reachability invariant of the streak fields: the historical best bounds
the current streak, and a null login date only occurs in the pristine
zero state. -/
def StreakInv (s : StreakState) : Prop :=
  s.login_streak ≤ s.best_login_streak ∧
  (s.last_login_date = none →
     s.best_login_streak = 0 ∧ s.total_login_days = 0) ∧
  (s.last_login_date ≠ none → 1 ≤ s.best_login_streak)

theorem streakInv_init : StreakInv initStreak := by
  refine ⟨Nat.le_refl 0, fun _ => ⟨rfl, rfl⟩, fun h => ?_⟩
  exact absurd rfl h

theorem applyLogin_last_eq (u : StreakState) (today : Int) :
    ((applyLogin u today).1).last_login_date = some today := by
  unfold applyLogin
  match h : u.last_login_date with
  | none => simp
  | some last =>
      by_cases h1 : last = today
      · simp [h1]; rw [h, h1]
      · by_cases h2 : last = today - 1 <;> simp [h1, h2]

theorem streakInv_step (u : StreakState) (today : Int) (hu : StreakInv u) :
    StreakInv (applyLogin u today).1 := by
  obtain ⟨hbs, hnull, hpos⟩ := hu
  unfold applyLogin
  match h : u.last_login_date with
  | none =>
      exact ⟨Nat.le_refl 1, by simp, fun _ => Nat.le_refl 1⟩
  | some last =>
      by_cases h1 : last = today
      · simpa [h1] using ⟨hbs, by simp [h], fun _ => hpos (by simp [h])⟩
      · by_cases h2 : last = today - 1
        · refine ⟨?_, by simp [h1, h2], fun _ => ?_⟩
          · by_cases h3 : u.login_streak + 1 > u.best_login_streak <;>
              simp [h1, h2, h3] <;> omega
          · have := hpos (by simp [h])
            by_cases h3 : u.login_streak + 1 > u.best_login_streak <;>
              simp [h1, h2, h3] <;> omega
        · refine ⟨?_, by simp [h1, h2], fun _ => ?_⟩
          · have := hpos (by simp [h])
            simp [h1, h2]; omega
          · have := hpos (by simp [h])
            simpa [h1, h2] using this

theorem applyLogin_best_mono (u : StreakState) (today : Int)
    (hu : StreakInv u) :
    u.best_login_streak ≤ ((applyLogin u today).1).best_login_streak := by
  obtain ⟨hbs, hnull, hpos⟩ := hu
  unfold applyLogin
  match h : u.last_login_date with
  | none =>
      have := (hnull (by simp [h])).1
      simp [this]
  | some last =>
      by_cases h1 : last = today
      · simp [h1]
      · by_cases h2 : last = today - 1
        · by_cases h3 : u.login_streak + 1 > u.best_login_streak <;>
            simp [h1, h2, h3] <;> omega
        · simp [h1, h2]

theorem applyLogin_total_mono (u : StreakState) (today : Int)
    (hu : StreakInv u) :
    u.total_login_days ≤ ((applyLogin u today).1).total_login_days := by
  obtain ⟨hbs, hnull, hpos⟩ := hu
  unfold applyLogin
  match h : u.last_login_date with
  | none =>
      have := (hnull (by simp [h])).2
      simp [this]
  | some last =>
      by_cases h1 : last = today
      · simp [h1]
      · by_cases h2 : last = today - 1 <;> simp [h1, h2]

theorem streakInv_run (ds : List Int) : StreakInv (runLogins ds) := by
  have main : ∀ (l : List Int) (s : StreakState), StreakInv s →
      StreakInv (l.foldl (fun s d => (applyLogin s d).1) s) := by
    intro l
    induction l with
    | nil => intro s hs; exact hs
    | cons d l ih =>
        intro s hs
        exact ih _ (streakInv_step s d hs)
  exact main ds initStreak streakInv_init

theorem applyLogin_same_day (u : StreakState) (today : Int)
    (h : u.last_login_date = some today) :
    applyLogin u today = (u, 0) := by
  simp [applyLogin, h]

/-- C1: on a consecutive-day login (`last_login_date = today - 1`),
`applyLogin` increments `login_streak` and `total_login_days`, pays the
tiered bonus computed from the new streak value (70 at n = 7, 445 at
n = 30, 720 at n = 41), adds exactly that bonus to `streak_points`, and
raises `best_login_streak` to the new streak whenever it exceeds it. -/
theorem streak_consecutive_day (u : StreakState) (today : Int)
    (h : u.last_login_date = some (today - 1)) :
    (applyLogin u today).1.login_streak = u.login_streak + 1 ∧
    (applyLogin u today).1.total_login_days = u.total_login_days + 1 ∧
    (applyLogin u today).2 = streakBonus (u.login_streak + 1) ∧
    (∀ n : Nat, streakBonus n =
       if n ≤ 7 then 10 * n
       else if n ≤ 30 then 100 + (n - 7) * 15
       else 500 + (n - 30) * 20) ∧
    streakBonus 7 = 70 ∧ streakBonus 30 = 445 ∧ streakBonus 41 = 720 ∧
    (applyLogin u today).1.streak_points
      = u.streak_points + (applyLogin u today).2 ∧
    (applyLogin u today).1.best_login_streak
      = (if u.login_streak + 1 > u.best_login_streak then u.login_streak + 1
         else u.best_login_streak) := by
  have hne : today - 1 ≠ today := by omega
  refine ⟨?_, ?_, ?_, fun n => rfl, by decide, by decide, by decide, ?_, ?_⟩
    <;> simp [applyLogin, h, hne]

/-- Concrete state for witnesses: a user six days into a streak whose last
login was day 4. -/
def sampleDaySix : StreakState :=
  { login_streak := 6, best_login_streak := 6, last_login_date := some 4,
    total_login_days := 6, streak_points := 210 }

/-- Concrete state for witnesses: a user who already logged in on day 9. -/
def sampleToday : StreakState :=
  { login_streak := 3, best_login_streak := 5, last_login_date := some 9,
    total_login_days := 8, streak_points := 120 }

/-- Concrete state for witnesses: a user whose stored login date (day 10)
is later than the supplied today (day 3). -/
def sampleStale : StreakState :=
  { login_streak := 4, best_login_streak := 6, last_login_date := some 10,
    total_login_days := 12, streak_points := 300 }

/-- Concrete state for the C5 counterexample: null login date but nonzero
stored points. -/
def samplePointsOnly : StreakState :=
  { login_streak := 0, best_login_streak := 0, last_login_date := none,
    total_login_days := 0, streak_points := 5 }

/-- Witness for `streak_consecutive_day` at a concrete consecutive-day
state (streak 6 extended to 7, paying 70 points). -/
theorem streak_consecutive_day_witness :
    (applyLogin sampleDaySix 5).1.login_streak = 6 + 1 ∧
    (applyLogin sampleDaySix 5).2 = 70 := by
  have h := streak_consecutive_day sampleDaySix 5 (by decide)
  exact ⟨h.1, by rw [h.2.2.1]; decide⟩

/-- C2: a same-day repeat login changes no streak field and pays nothing,
and consequently `applyLogin` is idempotent in the state for a fixed
`today`: the second call returns the once-updated state unchanged with
zero points. -/
theorem streak_same_day_idempotent (u : StreakState) (today : Int) :
    (u.last_login_date = some today → applyLogin u today = (u, 0)) ∧
    applyLogin (applyLogin u today).1 today = ((applyLogin u today).1, 0) := by
  refine ⟨applyLogin_same_day u today, ?_⟩
  exact applyLogin_same_day _ today (applyLogin_last_eq u today)

/-- Witness for `streak_same_day_idempotent` at a concrete state whose
last login date equals today. -/
theorem streak_same_day_idempotent_witness :
    applyLogin sampleToday 9 = (sampleToday, 0) :=
  (streak_same_day_idempotent sampleToday 9).1 rfl

/-- C3: on a gap (stored date is neither today nor yesterday, including a
backdated `today` earlier than the stored date), `applyLogin` resets the
streak to 1, increments `total_login_days`, pays exactly 10 points,
leaves `best_login_streak` unchanged, stamps `last_login_date = today`,
and is total (never fails). -/
theorem streak_reset_on_gap (u : StreakState) (today last : Int)
    (h : u.last_login_date = some last) (h1 : last ≠ today)
    (h2 : last ≠ today - 1) :
    (applyLogin u today).1.login_streak = 1 ∧
    (applyLogin u today).1.total_login_days = u.total_login_days + 1 ∧
    (applyLogin u today).2 = 10 ∧
    (applyLogin u today).1.streak_points = u.streak_points + 10 ∧
    (applyLogin u today).1.best_login_streak = u.best_login_streak ∧
    (applyLogin u today).1.last_login_date = some today := by
  refine ⟨?_, ?_, ?_, ?_, ?_, ?_⟩ <;> simp [applyLogin, h, h1, h2]

/-- Witness for `streak_reset_on_gap` at a backdated input: stored date 10,
login with today = 3. -/
theorem streak_reset_on_gap_witness :
    (applyLogin sampleStale 3).1.login_streak = 1 ∧
    (applyLogin sampleStale 3).1.best_login_streak = 6 := by
  have h := streak_reset_on_gap sampleStale 3 10 rfl (by decide) (by decide)
  exact ⟨h.1, by rw [h.2.2.2.2.1]; decide⟩

/-- C4: along any sequence of logins with non-decreasing dates starting
from the initial user state, after each update `best_login_streak` bounds
`login_streak`, and both `best_login_streak` and `total_login_days` are
non-decreasing across the sequence. -/
theorem streak_monotone_best (ds : List Int) (d : Int)
    (hsorted : List.Sorted (· ≤ ·) (ds ++ [d])) :
    (runLogins (ds ++ [d])).login_streak
      ≤ (runLogins (ds ++ [d])).best_login_streak ∧
    (runLogins ds).best_login_streak
      ≤ (runLogins (ds ++ [d])).best_login_streak ∧
    (runLogins ds).total_login_days
      ≤ (runLogins (ds ++ [d])).total_login_days := by
  have hinv : StreakInv (runLogins ds) := streakInv_run ds
  have hrw : runLogins (ds ++ [d]) = (applyLogin (runLogins ds) d).1 := by
    simp [runLogins, List.foldl_append]
  rw [hrw]
  exact ⟨(streakInv_step _ d hinv).1, applyLogin_best_mono _ d hinv,
    applyLogin_total_mono _ d hinv⟩

/-- Witness for `streak_monotone_best` on the concrete sorted login
sequence 0, 1. -/
theorem streak_monotone_best_witness :
    (runLogins ([0] ++ [1])).login_streak
      ≤ (runLogins ([0] ++ [1])).best_login_streak ∧
    (runLogins [0]).best_login_streak
      ≤ (runLogins ([0] ++ [1])).best_login_streak ∧
    (runLogins [0]).total_login_days
      ≤ (runLogins ([0] ++ [1])).total_login_days :=
  streak_monotone_best [0] 1 (by simp)

/-- C5 counterexample: for a state with `last_login_date = none` but
`streak_points = 5`, the first-login branch sets `streak_points` to
exactly 10 rather than adding 10 (which would give 15): the source
assigns `user.streak_points = 10` instead of incrementing. -/
theorem streak_first_login_counterexample :
    ¬ ((applyLogin samplePointsOnly 0).1.streak_points
        = samplePointsOnly.streak_points + 10) := by
  decide

/-- C5 amended: on a first-ever login (`last_login_date = none`),
`applyLogin` sets `login_streak = 1`, `best_login_streak = 1`,
`total_login_days = 1`, sets `streak_points` to exactly 10 (coinciding
with adding 10 only because the fresh-user state has zero points), pays
10 points, and stamps `last_login_date = today`. -/
theorem streak_first_login (u : StreakState) (today : Int)
    (h : u.last_login_date = none) :
    applyLogin u today =
      ({ login_streak := 1, best_login_streak := 1,
         last_login_date := some today, total_login_days := 1,
         streak_points := 10 }, 10) := by
  simp [applyLogin, h]

/-- Witness for `streak_first_login` at the initial user state. -/
theorem streak_first_login_witness :
    applyLogin initStreak 7 =
      ({ login_streak := 1, best_login_streak := 1,
         last_login_date := some 7, total_login_days := 1,
         streak_points := 10 }, 10) :=
  streak_first_login initStreak 7 rfl

/-- Stable insertion into a descending list: the new element is placed
after every element whose key is strictly larger, and before the first
element whose key is less than or equal (so earlier-fetched elements with
an equal key stay in front).  This models the stability guarantee of
Python's `list.sort(..., reverse=True)`. -/
def insertDescBy {α β : Type} [LinearOrder β] (key : α → β) (x : α) :
    List α → List α
  | [] => [x]
  | y :: ys =>
      if key x < key y then y :: insertDescBy key x ys else x :: y :: ys

/-- Stable descending sort by a key, modelling Python's stable
`sort(key=..., reverse=True)` (and the SQL `ORDER BY ... DESC` of the
global leaderboard). -/
def sortDescBy {α β : Type} [LinearOrder β] (key : α → β) :
    List α → List α
  | [] => []
  | x :: xs => insertDescBy key x (sortDescBy key xs)

theorem insertDescBy_perm {α β : Type} [LinearOrder β] (key : α → β)
    (x : α) (l : List α) : (insertDescBy key x l).Perm (x :: l) := by
  induction l with
  | nil => exact List.Perm.refl _
  | cons y ys ih =>
      by_cases h : key x < key y
      · simp only [insertDescBy, if_pos h]
        exact ((ih.cons y).trans (List.Perm.swap x y ys))
      · simp only [insertDescBy, if_neg h]
        exact List.Perm.refl _

theorem sortDescBy_perm {α β : Type} [LinearOrder β] (key : α → β)
    (l : List α) : (sortDescBy key l).Perm l := by
  induction l with
  | nil => exact List.Perm.refl _
  | cons x xs ih =>
      exact (insertDescBy_perm key x (sortDescBy key xs)).trans (ih.cons x)

theorem mem_insertDescBy {α β : Type} [LinearOrder β] (key : α → β)
    (x a : α) (l : List α) :
    a ∈ insertDescBy key x l ↔ a = x ∨ a ∈ l :=
  ⟨fun h => List.mem_cons.mp ((insertDescBy_perm key x l).mem_iff.mp h),
   fun h => (insertDescBy_perm key x l).mem_iff.mpr (by
     rcases h with h | h
     · exact h ▸ List.mem_cons_self x l
     · exact List.mem_cons_of_mem x h)⟩

theorem insertDescBy_pairwise {α β : Type} [LinearOrder β] (key : α → β)
    (x : α) (l : List α)
    (hl : l.Pairwise (fun a b => key b ≤ key a)) :
    (insertDescBy key x l).Pairwise (fun a b => key b ≤ key a) := by
  induction l with
  | nil => simp [insertDescBy]
  | cons y ys ih =>
      rcases List.pairwise_cons.mp hl with ⟨hy, hys⟩
      by_cases h : key x < key y
      · simp only [insertDescBy, if_pos h]
        refine List.pairwise_cons.mpr ⟨?_, ih hys⟩
        intro b hb
        rcases (mem_insertDescBy key x b ys).mp hb with hb | hb
        · exact hb ▸ le_of_lt h
        · exact hy b hb
      · simp only [insertDescBy, if_neg h]
        refine List.pairwise_cons.mpr ⟨?_, hl⟩
        intro b hb
        rcases List.mem_cons.mp hb with hb | hb
        · exact hb ▸ le_of_not_lt h
        · exact le_trans (hy b hb) (le_of_not_lt h)

theorem sortDescBy_pairwise {α β : Type} [LinearOrder β] (key : α → β)
    (l : List α) :
    (sortDescBy key l).Pairwise (fun a b => key b ≤ key a) := by
  induction l with
  | nil => simp [sortDescBy]
  | cons x xs ih => exact insertDescBy_pairwise key x _ ih

theorem insertDescBy_filter_pos {α β : Type} [LinearOrder β] (key : α → β)
    (x : α) (l : List α) (p : α → Bool) (hx : p x = true)
    (hk : ∀ y, key x < key y → p y = false) :
    (insertDescBy key x l).filter p = x :: l.filter p := by
  induction l with
  | nil => simp [insertDescBy, hx]
  | cons y ys ih =>
      by_cases h : key x < key y
      · have hpy : p y = false := hk y h
        simp only [insertDescBy, if_pos h, List.filter_cons, hpy]
        simpa [hpy] using ih
      · simp [insertDescBy, if_neg h, List.filter_cons, hx]

theorem insertDescBy_filter_neg {α β : Type} [LinearOrder β] (key : α → β)
    (x : α) (l : List α) (p : α → Bool) (hx : p x = false) :
    (insertDescBy key x l).filter p = l.filter p := by
  induction l with
  | nil => simp [insertDescBy, hx]
  | cons y ys ih =>
      by_cases h : key x < key y
      · simp only [insertDescBy, if_pos h, List.filter_cons]
        rw [ih]
      · simp [insertDescBy, if_neg h, List.filter_cons, hx]

theorem sortDescBy_filter_key {α β : Type} [LinearOrder β] (key : α → β)
    (l : List α) (k : β) :
    (sortDescBy key l).filter (fun a => decide (key a = k))
      = l.filter (fun a => decide (key a = k)) := by
  induction l with
  | nil => rfl
  | cons x xs ih =>
      by_cases hx : key x = k
      · rw [sortDescBy,
          insertDescBy_filter_pos key x _ _ (by simp [hx])
            (fun y hy => by
              simp only [decide_eq_false_iff_not]
              intro hyk
              rw [hx] at hy
              rw [hyk] at hy
              exact absurd hy (lt_irrefl k)),
          ih]
        simp [List.filter_cons, hx]
      · rw [sortDescBy, insertDescBy_filter_neg key x _ _ (by simp [hx]), ih]
        simp [List.filter_cons, hx]

/-- Rank assignment starting at `i`, modelling `enumerate(..., 1)` in the
global leaderboard and the `i + 1` rank field of the game leaderboard. -/
def addRanks {α : Type} (i : Nat) : List α → List (Nat × α)
  | [] => []
  | x :: xs => (i, x) :: addRanks (i + 1) xs

theorem addRanks_map_fst {α : Type} (i : Nat) (l : List α) :
    (addRanks i l).map Prod.fst = List.range' i l.length := by
  induction l generalizing i with
  | nil => rfl
  | cons x xs ih => simp [addRanks, List.range'_succ, ih]

theorem addRanks_map_snd {α : Type} (i : Nat) (l : List α) :
    (addRanks i l).map Prod.snd = l := by
  induction l generalizing i with
  | nil => rfl
  | cons x xs ih => simp [addRanks, ih]

/-- User fields consumed by the leaderboard endpoints of `server.py`.
The JSON column `high_scores` (`game_id → best score`) is modelled as an
association list with unique keys maintained by `dictSet`. -/
structure UserRec where
  uid : Nat
  high_scores : List (String × Int)
  total_games_played : Nat
  total_play_time : Nat
  deriving Repr, DecidableEq

/-- Lookup in a Python-dict-like association list (`d.get(k)` /
`k in d`). -/
def dictGet (d : List (String × Int)) (k : String) : Option Int :=
  match d.find? (fun p => p.1 == k) with
  | some p => some p.2
  | none => none

/-- Overwriting update of a Python-dict-like association list
(`d[k] = v`). -/
def dictSet (d : List (String × Int)) (k : String) (v : Int) :
    List (String × Int) :=
  match d with
  | [] => [(k, v)]
  | p :: ps => if p.1 == k then (k, v) :: ps else p :: dictSet ps k v

/-- Embedding of the per-user core of `submit_score` in `server.py`:
overwrite the stored high score only when the submission is strictly
higher, bump the play totals, and return the updated user together with
`new_high_score` and the `high_score` response field
(`high_scores.get(game_id, submission.score)`). -/
def submitScore (u : UserRec) (game_id : String) (score : Int)
    (play_time : Nat) : UserRec × Bool × Int :=
  let current_high := (dictGet u.high_scores game_id).getD 0
  let u1 := if score > current_high then
              { u with high_scores := dictSet u.high_scores game_id score }
            else u
  let u2 := { u1 with total_games_played := u1.total_games_played + 1,
                      total_play_time := u1.total_play_time + play_time }
  (u2, decide (score > current_high),
   (dictGet u2.high_scores game_id).getD score)

/-- Candidate (uid, score) pairs of the per-game leaderboard: users whose
`high_scores` dict contains the game, in fetch order (`select(User)`). -/
def gameCandidates (db : List UserRec) (gid : String) :
    List (Nat × Int) :=
  db.filterMap (fun u =>
    match dictGet u.high_scores gid with
    | some s => some (u.uid, s)
    | none => none)

/-- Embedding of the ranking part of `get_game_leaderboard`: stable sort
by score descending, truncate to `limit`, then attach ranks starting at
1.  Rows are (rank, (uid, score)). -/
def computeGameLB (db : List UserRec) (gid : String) (lim : Nat) :
    List (Nat × Nat × Int) :=
  addRanks 1 ((sortDescBy (fun p => p.2) (gameCandidates db gid)).take lim)

/-- Ranking key of the global leaderboard:
`ORDER BY total_games_played DESC, total_play_time DESC`, i.e. the
lexicographic order on the pair. -/
def globalKey (u : UserRec) : Lex (Nat × Nat) :=
  toLex (u.total_games_played, u.total_play_time)

/-- Embedding of the ranking part of `get_global_leaderboard`: all users
ordered descending by `globalKey`, truncated to `limit`, ranked from 1.
Rows are (rank, user). -/
def computeGlobalLB (db : List UserRec) (lim : Nat) :
    List (Nat × UserRec) :=
  addRanks 1 ((sortDescBy globalKey db).take lim)

/-- Concrete user with no recorded scores, used by the C7
counterexample. -/
def sampleNoScores : UserRec :=
  { uid := 1, high_scores := [], total_games_played := 0,
    total_play_time := 0 }

/-- Concrete user holding a high score of 100 on game "g". -/
def sampleScorer : UserRec :=
  { uid := 2, high_scores := [("g", 100)], total_games_played := 3,
    total_play_time := 40 }

/-- Concrete user holding a high score of 80 on game "g". -/
def sampleScorerLow : UserRec :=
  { uid := 3, high_scores := [("g", 80)], total_games_played := 5,
    total_play_time := 10 }

/-- Concrete two-candidate database for the C6 counterexample. -/
def dbTwo : List UserRec := [sampleScorerLow, sampleScorer]

/-- C7 counterexample: submitting a negative score for a game the user has
never played stores nothing and returns `new_high_score = false`, but the
`high_score` response field is the submitted score itself (the source
returns `high_scores.get(game_id, submission.score)`), which differs from
the stored high value (absent, read back as 0). -/
theorem submit_score_response_counterexample :
    (submitScore sampleNoScores "g" (-5) 0).2.1 = false ∧
    (dictGet (submitScore sampleNoScores "g" (-5) 0).1.high_scores
      "g").getD 0 = 0 ∧
    ¬ ((submitScore sampleNoScores "g" (-5) 0).2.2
        = (dictGet (submitScore sampleNoScores "g" (-5) 0).1.high_scores
            "g").getD 0) := by
  refine ⟨rfl, rfl, ?_⟩
  decide

/-- C7 amended: `submitScore` with `score ≤ currentHigh` leaves the stored
high-score dict unchanged and returns `new_high_score = false`; the
`high_score` response field equals the stored high value whenever an
entry for the game exists, and equals the submitted score itself when no
entry exists (which only coincides with the stored default 0 for
`score = 0`). -/
theorem submit_score_no_overwrite (u : UserRec) (gid : String)
    (score : Int) (pt : Nat)
    (h : score ≤ (dictGet u.high_scores gid).getD 0) :
    (submitScore u gid score pt).1.high_scores = u.high_scores ∧
    (submitScore u gid score pt).2.1 = false ∧
    (∀ v, dictGet u.high_scores gid = some v →
       (submitScore u gid score pt).2.2 = v) ∧
    (dictGet u.high_scores gid = none →
       (submitScore u gid score pt).2.2 = score) := by
  have hng : ¬ (score > (dictGet u.high_scores gid).getD 0) := not_lt.mpr h
  have hret : (submitScore u gid score pt).2.2
      = (dictGet u.high_scores gid).getD score := by
    simp [submitScore, if_neg hng]
  refine ⟨?_, ?_, ?_, ?_⟩
  · simp [submitScore, if_neg hng]
  · simp [submitScore, hng]
  · intro v hv
    rw [hret, hv]
    rfl
  · intro hv
    rw [hret, hv]
    rfl

/-- Witness for `submit_score_no_overwrite`: submitting 50 against a
stored high of 100 changes nothing and reports the stored 100. -/
theorem submit_score_no_overwrite_witness :
    (submitScore sampleScorer "g" 50 7).1.high_scores
      = sampleScorer.high_scores ∧
    (submitScore sampleScorer "g" 50 7).2.1 = false ∧
    (submitScore sampleScorer "g" 50 7).2.2 = 100 := by
  have h := submit_score_no_overwrite sampleScorer "g" 50 7 (by decide)
  exact ⟨h.1, h.2.1, h.2.2.1 100 (by decide)⟩

/-- C6 counterexample: with two candidates for game "g" but a call limit
of 1, `get_game_leaderboard` truncates before ranking and returns ranks
`[1]`, not `1..N` for N = 2 candidates. -/
theorem leaderboard_rank_truncation_counterexample :
    (gameCandidates dbTwo "g").length = 2 ∧
    (computeGameLB dbTwo "g" 1).map Prod.fst = [1] ∧
    ¬ ((computeGameLB dbTwo "g" 1).map Prod.fst
        = List.range' 1 (gameCandidates dbTwo "g").length) := by
  refine ⟨rfl, rfl, ?_⟩
  decide

/-- C6 amended: whenever the candidate set fits within the call's `limit`,
both leaderboard scopes return ranks exactly `1..N`, the returned rows
are the candidates ordered descending by the scope's key (raw score for
the game scope; total games played then total play time for the global
scope), and equal-key candidates keep their fetch order: restricting the
output to any fixed key value reproduces the candidate list's own
restriction (stability). -/
theorem leaderboard_ranks (db : List UserRec) (gid : String) (lim : Nat)
    (hg : (gameCandidates db gid).length ≤ lim) (hG : db.length ≤ lim) :
    (computeGameLB db gid lim).map Prod.fst
      = List.range' 1 (gameCandidates db gid).length ∧
    ((computeGameLB db gid lim).map Prod.snd).Pairwise
      (fun a b => b.2 ≤ a.2) ∧
    ((computeGameLB db gid lim).map Prod.snd).Perm
      (gameCandidates db gid) ∧
    (∀ k : Int, ((computeGameLB db gid lim).map Prod.snd).filter
        (fun p => decide (p.2 = k))
      = (gameCandidates db gid).filter (fun p => decide (p.2 = k))) ∧
    (computeGlobalLB db lim).map Prod.fst = List.range' 1 db.length ∧
    ((computeGlobalLB db lim).map Prod.snd).Pairwise
      (fun a b => globalKey b ≤ globalKey a) ∧
    ((computeGlobalLB db lim).map Prod.snd).Perm db ∧
    (∀ k, ((computeGlobalLB db lim).map Prod.snd).filter
        (fun u => decide (globalKey u = k))
      = db.filter (fun u => decide (globalKey u = k))) := by
  have hlg : (sortDescBy (fun p => p.2) (gameCandidates db gid)).length
      = (gameCandidates db gid).length :=
    (sortDescBy_perm (fun p => p.2) (gameCandidates db gid)).length_eq
  have htg : (sortDescBy (fun p => p.2) (gameCandidates db gid)).take lim
      = sortDescBy (fun p => p.2) (gameCandidates db gid) :=
    List.take_of_length_le (by rw [hlg]; exact hg)
  have hlG : (sortDescBy globalKey db).length = db.length :=
    (sortDescBy_perm globalKey db).length_eq
  have htG : (sortDescBy globalKey db).take lim = sortDescBy globalKey db :=
    List.take_of_length_le (by rw [hlG]; exact hG)
  refine ⟨?_, ?_, ?_, ?_, ?_, ?_, ?_, ?_⟩
  · rw [computeGameLB, htg, addRanks_map_fst, hlg]
  · rw [computeGameLB, htg, addRanks_map_snd]
    exact sortDescBy_pairwise (fun p : Nat × Int => p.2)
      (gameCandidates db gid)
  · rw [computeGameLB, htg, addRanks_map_snd]
    exact sortDescBy_perm (fun p : Nat × Int => p.2)
      (gameCandidates db gid)
  · intro k
    rw [computeGameLB, htg, addRanks_map_snd]
    exact sortDescBy_filter_key (fun p : Nat × Int => p.2)
      (gameCandidates db gid) k
  · rw [computeGlobalLB, htG, addRanks_map_fst, hlG]
  · rw [computeGlobalLB, htG, addRanks_map_snd]
    exact sortDescBy_pairwise globalKey db
  · rw [computeGlobalLB, htG, addRanks_map_snd]
    exact sortDescBy_perm globalKey db
  · intro k
    rw [computeGlobalLB, htG, addRanks_map_snd]
    exact sortDescBy_filter_key globalKey db k

/-- Witness for `leaderboard_ranks` on the concrete two-user database with
the default limit 50. -/
theorem leaderboard_ranks_witness :
    (computeGameLB dbTwo "g" 50).map Prod.fst
      = List.range' 1 (gameCandidates dbTwo "g").length ∧
    (computeGlobalLB dbTwo 50).map Prod.fst
      = List.range' 1 dbTwo.length :=
  ⟨(leaderboard_ranks dbTwo "g" 50 (by decide) (by decide)).1,
   (leaderboard_ranks dbTwo "g" 50 (by decide) (by decide)).2.2.2.2.1⟩

/-- JSON serialization of a game-leaderboard row, modelling the
`json.dumps` payload stored by `set_cache`; only its non-emptiness
matters to the truthiness check in `get_cache`. -/
def serializeGameRow (r : Nat × Nat × Int) : String :=
  toString r.1 ++ ":" ++ toString r.2.1 ++ ":" ++ toString r.2.2

/-- JSON serialization of a game-leaderboard payload; an empty list
serializes to the non-empty (hence truthy) string "[]". -/
def serializeGameRows (rows : List (Nat × Nat × Int)) : String :=
  "[" ++ String.intercalate "," (rows.map serializeGameRow) ++ "]"

/-- JSON serialization of a global-leaderboard row. -/
def serializeGlobalRow (r : Nat × UserRec) : String :=
  toString r.1 ++ ":" ++ toString r.2.uid

/-- JSON serialization of a global-leaderboard payload. -/
def serializeGlobalRows (rows : List (Nat × UserRec)) : String :=
  "[" ++ String.intercalate "," (rows.map serializeGlobalRow) ++ "]"

theorem serializeGameRows_ne_empty (rows : List (Nat × Nat × Int)) :
    serializeGameRows rows ≠ "" := by
  intro h
  have h2 := congrArg String.length h
  rw [serializeGameRows, String.length_append, String.length_append] at h2
  have h3 : ("[" : String).length = 1 := rfl
  have h4 : ("" : String).length = 0 := rfl
  omega

theorem serializeGlobalRows_ne_empty (rows : List (Nat × UserRec)) :
    serializeGlobalRows rows ≠ "" := by
  intro h
  have h2 := congrArg String.length h
  rw [serializeGlobalRows, String.length_append, String.length_append] at h2
  have h3 : ("[" : String).length = 1 := rfl
  have h4 : ("" : String).length = 0 := rfl
  omega

/-- State of the Redis-backed leaderboard cache of `cache.py`: an
availability flag (`redis_client` being initialized), the entry under
the global key, and the entries under the per-game keys; each entry
carries its payload and absolute expiry instant (`setex` TTL). -/
structure LBCache where
  available : Bool
  globalE : Option (List (Nat × UserRec) × Int)
  gameE : List (String × List (Nat × Nat × Int) × Int)
  deriving Repr, DecidableEq

/-- TTL of leaderboard entries (`CACHE_TTLS["leaderboard"] = 30`). -/
def leaderboardTTL : Int := 30

/-- Embedding of `get_cache` ∘ `get_leaderboard` for the global key:
`None` when the client is unavailable, the key is absent, the entry has
expired, or the stored string is falsy (the last never happens for a
serialized list). -/
def getCachedGlobal (c : LBCache) (now : Int) :
    Option (List (Nat × UserRec)) :=
  if c.available then
    match c.globalE with
    | some (rows, exp) =>
        if now < exp ∧ serializeGlobalRows rows ≠ "" then some rows
        else none
    | none => none
  else none

/-- Embedding of `get_cache` ∘ `get_leaderboard` for a per-game key. -/
def getCachedGame (c : LBCache) (gid : String) (now : Int) :
    Option (List (Nat × Nat × Int)) :=
  if c.available then
    match c.gameE.find? (fun p => p.1 == gid) with
    | some e =>
        if now < e.2.2 ∧ serializeGameRows e.2.1 ≠ "" then some e.2.1
        else none
    | none => none
  else none

/-- Embedding of `set_cache` ∘ `set_leaderboard` for the global key: a
no-op when the client is unavailable, otherwise `setex` with the
leaderboard TTL. -/
def setCachedGlobal (c : LBCache) (rows : List (Nat × UserRec))
    (now : Int) : LBCache :=
  if c.available then { c with globalE := some (rows, now + leaderboardTTL) }
  else c

/-- Embedding of `set_cache` ∘ `set_leaderboard` for a per-game key. -/
def setCachedGame (c : LBCache) (gid : String)
    (rows : List (Nat × Nat × Int)) (now : Int) : LBCache :=
  if c.available then
    { c with gameE := (gid, rows, now + leaderboardTTL)
        :: c.gameE.filter (fun p => ¬ (p.1 = gid)) }
  else c

/-- Embedding of `delete_cache` for a per-game leaderboard key
(`invalidate_leaderboard(game_id)`): a no-op when the client is
unavailable. -/
def deleteCachedGame (c : LBCache) (gid : String) : LBCache :=
  if c.available then
    { c with gameE := c.gameE.filter (fun p => ¬ (p.1 = gid)) }
  else c

/-- Embedding of `delete_pattern("hypd:leaderboard:*")`
(`invalidate_leaderboard()` with no game): removes every leaderboard
entry, global and per-game; a no-op when the client is unavailable. -/
def deleteAllLeaderboards (c : LBCache) : LBCache :=
  if c.available then { c with globalE := none, gameE := [] } else c

/-- Embedding of `invalidate_leaderboard` from `cache.py`. -/
def invalidateLeaderboard (c : LBCache) (gid : Option String) : LBCache :=
  match gid with
  | some g => deleteCachedGame c g
  | none => deleteAllLeaderboards c

/-- Embedding of the `get_game_leaderboard` endpoint: serve the cached
rows when the cached value is truthy (present and non-empty), otherwise
recompute, repopulate the cache, and report `cached = False`. -/
def getGameLeaderboardEP (db : List UserRec) (gid : String) (lim : Nat)
    (c : LBCache) (now : Int) :
    List (Nat × Nat × Int) × Bool × LBCache :=
  match getCachedGame c gid now with
  | some rows =>
      if rows = [] then
        (computeGameLB db gid lim, false,
         setCachedGame c gid (computeGameLB db gid lim) now)
      else (rows, true, c)
  | none =>
      (computeGameLB db gid lim, false,
       setCachedGame c gid (computeGameLB db gid lim) now)

/-- Embedding of the `get_global_leaderboard` endpoint. -/
def getGlobalLeaderboardEP (db : List UserRec) (lim : Nat) (c : LBCache)
    (now : Int) : List (Nat × UserRec) × Bool × LBCache :=
  match getCachedGlobal c now with
  | some rows =>
      if rows = [] then
        (computeGlobalLB db lim, false,
         setCachedGlobal c (computeGlobalLB db lim) now)
      else (rows, true, c)
  | none =>
      (computeGlobalLB db lim, false,
       setCachedGlobal c (computeGlobalLB db lim) now)

/-- Embedding of the `submit_score` endpoint around `submitScore`: update
the submitting user's row, then invalidate the per-game key and (via the
pattern delete) every leaderboard key; the response always reports
`success = True`. -/
def submitScoreEP (db : List UserRec) (uid : Nat) (gid : String)
    (score : Int) (pt : Nat) (c : LBCache) :
    List UserRec × LBCache × Bool :=
  (db.map (fun u => if u.uid = uid then (submitScore u gid score pt).1
                    else u),
   invalidateLeaderboard (invalidateLeaderboard c (some gid)) none,
   true)

/-- Concrete available cache holding a stale game snapshot, for the C8
witness. -/
def sampleCache : LBCache :=
  { available := true, globalE := none,
    gameE := [("g", [(1, 2, 100)], 50)] }

/-- Concrete unavailable cache (client not initialized) still physically
holding an entry, for the C9 witness. -/
def sampleDownCache : LBCache :=
  { available := false, globalE := none,
    gameE := [("g", [(1, 9, 5)], 50)] }

/-- Concrete cache holding stored empty snapshots under both leaderboard
keys, for the C10 counterexample and witness. -/
def sampleEmptyCache : LBCache :=
  { available := true, globalE := some ([], 100),
    gameE := [("g", [], 100)] }

/-- C8: after `submit_score`, both leaderboard cache scopes are discarded
(the per-game key and, via the pattern delete, the global key), so the
very next read of either scope recomputes from the source of truth over
the updated users and reports `cached = False`, even within the TTL
window; the recompute conclusion holds whether or not the cache backend
is reachable. -/
theorem submit_invalidates_cache (db : List UserRec) (uid : Nat)
    (gid : String) (score : Int) (pt : Nat) (c : LBCache) (lim : Nat)
    (now : Int) (h : c.available = true) :
    getCachedGame (submitScoreEP db uid gid score pt c).2.1 gid now
      = none ∧
    (submitScoreEP db uid gid score pt c).2.1.gameE = [] ∧
    (submitScoreEP db uid gid score pt c).2.1.globalE = none ∧
    (getGameLeaderboardEP (submitScoreEP db uid gid score pt c).1 gid lim
        (submitScoreEP db uid gid score pt c).2.1 now).1
      = computeGameLB (submitScoreEP db uid gid score pt c).1 gid lim ∧
    (getGameLeaderboardEP (submitScoreEP db uid gid score pt c).1 gid lim
        (submitScoreEP db uid gid score pt c).2.1 now).2.1 = false ∧
    (getGlobalLeaderboardEP (submitScoreEP db uid gid score pt c).1 lim
        (submitScoreEP db uid gid score pt c).2.1 now).1
      = computeGlobalLB (submitScoreEP db uid gid score pt c).1 lim ∧
    (getGlobalLeaderboardEP (submitScoreEP db uid gid score pt c).1 lim
        (submitScoreEP db uid gid score pt c).2.1 now).2.1 = false := by
  have hc : (submitScoreEP db uid gid score pt c).2.1
      = { available := true, globalE := none, gameE := [] } := by
    simp [submitScoreEP, invalidateLeaderboard, deleteAllLeaderboards,
      deleteCachedGame, h]
  have hget : getCachedGame (submitScoreEP db uid gid score pt c).2.1 gid
      now = none := by
    rw [hc]
    simp [getCachedGame]
  have hgetG : getCachedGlobal (submitScoreEP db uid gid score pt c).2.1
      now = none := by
    rw [hc]
    simp [getCachedGlobal]
  refine ⟨hget, by rw [hc], by rw [hc], ?_, ?_, ?_, ?_⟩ <;>
    simp [getGameLeaderboardEP, getGlobalLeaderboardEP, hget, hgetG]

/-- Witness for `submit_invalidates_cache` on the concrete two-user
database and an available cache holding a stale snapshot. -/
theorem submit_invalidates_cache_witness :
    getCachedGame (submitScoreEP dbTwo 2 "g" 500 9 sampleCache).2.1 "g" 0
      = none ∧
    (submitScoreEP dbTwo 2 "g" 500 9 sampleCache).2.1.globalE = none :=
  ⟨(submit_invalidates_cache dbTwo 2 "g" 500 9 sampleCache 50 0 rfl).1,
   (submit_invalidates_cache dbTwo 2 "g" 500 9 sampleCache 50 0
     rfl).2.2.1⟩

/-- C9: with the cache backend unavailable, both leaderboard reads behave
exactly as cache misses (they return the pure recomputation, marked
uncached, and leave the cache untouched), `submit_score` still succeeds,
and the cache get / set / delete operations are error-free no-ops. -/
theorem cache_unavailable_degrades (db : List UserRec) (gid : String)
    (lim : Nat) (c : LBCache) (now : Int) (uid : Nat) (score : Int)
    (pt : Nat) (h : c.available = false) :
    getGameLeaderboardEP db gid lim c now
      = (computeGameLB db gid lim, false, c) ∧
    getGlobalLeaderboardEP db lim c now
      = (computeGlobalLB db lim, false, c) ∧
    (submitScoreEP db uid gid score pt c).2.1 = c ∧
    (submitScoreEP db uid gid score pt c).2.2 = true ∧
    getCachedGame c gid now = none ∧
    getCachedGlobal c now = none ∧
    setCachedGame c gid (computeGameLB db gid lim) now = c ∧
    setCachedGlobal c (computeGlobalLB db lim) now = c ∧
    deleteCachedGame c gid = c ∧
    deleteAllLeaderboards c = c := by
  have hga : getCachedGame c gid now = none := by simp [getCachedGame, h]
  have hgb : getCachedGlobal c now = none := by simp [getCachedGlobal, h]
  refine ⟨?_, ?_, ?_, rfl, hga, hgb, ?_, ?_, ?_, ?_⟩
  · simp [getGameLeaderboardEP, hga, setCachedGame, h]
  · simp [getGlobalLeaderboardEP, hgb, setCachedGlobal, h]
  · simp [submitScoreEP, invalidateLeaderboard, deleteAllLeaderboards,
      deleteCachedGame, h]
  · simp [setCachedGame, h]
  · simp [setCachedGlobal, h]
  · simp [deleteCachedGame, h]
  · simp [deleteAllLeaderboards, h]

/-- Witness for `cache_unavailable_degrades` with a concrete unavailable
cache that still physically holds an entry. -/
theorem cache_unavailable_degrades_witness :
    getGameLeaderboardEP dbTwo "g" 50 sampleDownCache 0
      = (computeGameLB dbTwo "g" 50, false, sampleDownCache) ∧
    (submitScoreEP dbTwo 2 "g" 500 9 sampleDownCache).2.2 = true :=
  ⟨(cache_unavailable_degrades dbTwo "g" 50 sampleDownCache 0 2 500 9
      rfl).1,
   (cache_unavailable_degrades dbTwo "g" 50 sampleDownCache 0 2 500 9
      rfl).2.2.2.1⟩

/-- C10 counterexample: the cache getter does NOT treat a stored empty
list as a miss — the stored payload is the JSON string "[]", which is
truthy, so `get_cache` returns the empty list for both scopes; only the
endpoint-level `if cached:` check turns it into a miss. -/
theorem cached_empty_getter_counterexample :
    getCachedGame sampleEmptyCache "g" 0 = some [] ∧
    ¬ (getCachedGame sampleEmptyCache "g" 0 = none) ∧
    getCachedGlobal sampleEmptyCache 0 = some [] := by
  have h1 : getCachedGame sampleEmptyCache "g" 0 = some [] := by
    simp [getCachedGame, sampleEmptyCache, serializeGameRows_ne_empty]
  have h2 : getCachedGlobal sampleEmptyCache 0 = some [] := by
    simp [getCachedGlobal, sampleEmptyCache, serializeGlobalRows_ne_empty]
  exact ⟨h1, by rw [h1]; exact fun hx => Option.noConfusion hx, h2⟩

/-- C10 amended: the cache getter itself returns a stored empty snapshot
(its serialized payload is a truthy string), but the read endpoints take
the cached branch only when the cached list is non-empty; hence a served
cached result is never empty, and whenever the stored snapshot is the
empty list the endpoint recomputes from the source of truth and reports
`cached = False`. -/
theorem empty_leaderboard_never_cached (db : List UserRec) (gid : String)
    (lim : Nat) (c : LBCache) (now : Int) :
    ((getGameLeaderboardEP db gid lim c now).2.1 = true →
       (getGameLeaderboardEP db gid lim c now).1 ≠ []) ∧
    (getCachedGame c gid now = some [] →
       getGameLeaderboardEP db gid lim c now
         = (computeGameLB db gid lim, false,
            setCachedGame c gid (computeGameLB db gid lim) now)) ∧
    ((getGlobalLeaderboardEP db lim c now).2.1 = true →
       (getGlobalLeaderboardEP db lim c now).1 ≠ []) ∧
    (getCachedGlobal c now = some [] →
       getGlobalLeaderboardEP db lim c now
         = (computeGlobalLB db lim, false,
            setCachedGlobal c (computeGlobalLB db lim) now)) := by
  refine ⟨?_, ?_, ?_, ?_⟩
  · match hg : getCachedGame c gid now with
    | none => simp [getGameLeaderboardEP, hg]
    | some rows =>
        by_cases hrows : rows = [] <;>
          simp [getGameLeaderboardEP, hg, hrows]
  · intro hg
    simp [getGameLeaderboardEP, hg]
  · match hg : getCachedGlobal c now with
    | none => simp [getGlobalLeaderboardEP, hg]
    | some rows =>
        by_cases hrows : rows = [] <;>
          simp [getGlobalLeaderboardEP, hg, hrows]
  · intro hg
    simp [getGlobalLeaderboardEP, hg]

/-- Witness for `empty_leaderboard_never_cached`: a stored empty game
snapshot is bypassed and the result is freshly recomputed, uncached. -/
theorem empty_leaderboard_never_cached_witness :
    getGameLeaderboardEP [] "g" 50 sampleEmptyCache 0
      = (computeGameLB [] "g" 50, false,
         setCachedGame sampleEmptyCache "g" (computeGameLB [] "g" 50) 0) :=
  (empty_leaderboard_never_cached [] "g" 50 sampleEmptyCache 0).2.1
    (by simp [getCachedGame, sampleEmptyCache, serializeGameRows_ne_empty])

end HypdGames
